import Mathlib

/-!
Verification of the STACK backend onboarding-orchestration service.

The repository ships only HTTP-level test scripts (`test_api.py`,
`testsprite_tests/TC001`–`TC010`); the service implementation itself is not
part of the repository.  Every operational definition below is therefore a
model of the behaviour documented in the specification (and exercised by the
test scripts), marked `Modelled from the spec:` in its doc comment.

String processing is done over `String.data` (lists of characters) so that
all definitions evaluate inside the kernel on concrete inputs.
-/

namespace StackService

/-- ASCII uppercase of one character (case-normalization helper for chain
identifiers). -/
def upChar (c : Char) : Char :=
  if 97 ≤ c.toNat ∧ c.toNat ≤ 122 then Char.ofNat (c.toNat - 32) else c

/-- Characters of a string, uppercased. -/
def upData (s : String) : List Char := s.data.map upChar

/-- ASCII lowercase of one character (email case-normalization helper). -/
def downChar (c : Char) : Char :=
  if 65 ≤ c.toNat ∧ c.toNat ≤ 90 then Char.ofNat (c.toNat + 32) else c

/-- Modelled from the spec: emails are compared in case-normalized
(lowercased) form. -/
def normalizeEmail (e : String) : String := ⟨e.data.map downChar⟩

/-- Split a character list at the first occurrence of `c`. -/
def breakAt (c : Char) : List Char → Option (List Char × List Char)
  | [] => none
  | x :: xs =>
    if x = c then some ([], xs)
    else
      match breakAt c xs with
      | none => none
      | some (a, b) => some (x :: a, b)

/-- Modelled from the spec: the ValidationLayer's email grammar — a non-empty
local part, a single `@`, and a non-empty domain containing a dot.  The
implementation is absent from the repository; the grammar is the "standard
address grammar" of §4.4, coarse enough to accept the tests' addresses and
reject their malformed ones. -/
def validEmail (e : String) : Bool :=
  match breakAt '@' e.data with
  | none => false
  | some (lp, dom) =>
    !lp.isEmpty && !dom.isEmpty && !dom.contains '@' && dom.contains '.'

/-- Modelled from the spec: a document `fileUrl` "must parse as an absolute
URI with an http/https scheme — a bare string is rejected" (§4.4). -/
def isHttpUrl (u : String) : Bool :=
  (List.isPrefixOf "http://".data u.data && u.data.length > 7) ||
  (List.isPrefixOf "https://".data u.data && u.data.length > 8)

/-- KYC lifecycle status of an onboarding record (§4.1). -/
inductive KycStatus
  | notSubmitted
  | pending
  | approved
  | rejected
deriving DecidableEq

/-- Onboarding lifecycle status of a record (§4.1). -/
inductive OnboardingStatus
  | started
  | kycSubmitted
  | kycPending
  | kycApproved
  | kycFailed
  | walletProvisioning
  | completed
deriving DecidableEq

/-- Status of one KYC submission (§3). -/
inductive SubmissionStatus
  | pending
  | approved
  | rejected
deriving DecidableEq

/-- Modelled from the spec: the closed enumeration of supported chains — the
core set ETH/SOL/APTOS and their test-network variants, as exercised by
TC007/TC009/TC010 (§3, §9). -/
inductive Chain
  | eth
  | sol
  | aptos
  | ethSepolia
  | solDevnet
  | aptosTestnet
deriving DecidableEq

/-- Canonical (case-normalized) name of each supported chain. -/
def Chain.canonical : Chain → String
  | .eth => "ETH"
  | .sol => "SOL"
  | .aptos => "APTOS"
  | .ethSepolia => "ETH-SEPOLIA"
  | .solDevnet => "SOL-DEVNET"
  | .aptosTestnet => "APTOS-TESTNET"

/-- The canonical names of the supported-chain enumeration. -/
def supportedChainNames : List String :=
  ["ETH", "SOL", "APTOS", "ETH-SEPOLIA", "SOL-DEVNET", "APTOS-TESTNET"]

/-- Modelled from the spec: chain identifiers are matched case-insensitively
against the canonical enumeration; anything else is rejected, never coerced
(§3, §9). -/
def parseChain (s : String) : Option Chain :=
  let u := upData s
  if u = "ETH".data then some .eth
  else if u = "SOL".data then some .sol
  else if u = "APTOS".data then some .aptos
  else if u = "ETH-SEPOLIA".data then some .ethSepolia
  else if u = "SOL-DEVNET".data then some .solDevnet
  else if u = "APTOS-TESTNET".data then some .aptosTestnet
  else none

/-- Parse a whole batch of chain identifiers; `none` as soon as any entry is
unsupported (the batch is rejected atomically, §4.3). -/
def parseChains : List String → Option (List Chain)
  | [] => some []
  | s :: rest =>
    match parseChain s, parseChains rest with
    | some c, some cs => some (c :: cs)
    | _, _ => none

/-- One document inside a KYC submission payload; every field is optional at
the wire level so that missing fields are representable (§4.4). -/
structure Document where
  type : Option String
  fileUrl : Option String
  contentType : Option String
deriving DecidableEq

/-- A KYC submission payload as received on the wire; `personalInfo` and
`metadata` are passthrough blobs (§4.4). -/
structure KycSubmissionPayload where
  documentType : Option String
  documents : Option (List Document)
  personalInfo : Option String
  metadata : Option String
deriving DecidableEq

/-- Validity of one document: `type`, `fileUrl` (absolute http/https URI) and
`contentType` (non-empty) are all required (§4.4). -/
def validDocument (d : Document) : Bool :=
  (match d.type with | some t => !(t == "") | none => false) &&
  (match d.fileUrl with | some u => isHttpUrl u | none => false) &&
  (match d.contentType with | some c => !(c == "") | none => false)

/-- Modelled from the spec: KYC payload validation — `documentType` required
non-empty, `documents` required non-empty, each document valid (§4.4). -/
def validateKycSubmission (p : KycSubmissionPayload) : Bool :=
  (match p.documentType with | some t => !(t == "") | none => false) &&
  (match p.documents with
   | some ds => !ds.isEmpty && ds.all validDocument
   | none => false)

/-- One KYC submission persisted by the orchestrator (§3). -/
structure KycSubmission where
  providerRef : String
  userId : Nat
  status : SubmissionStatus
deriving DecidableEq

/-- One onboarding record, one per user/email (§3): user id, case-normalized
email, the two lifecycle statuses, the ordered completed-steps set, and the
last submission's provider reference. -/
structure OnboardingRecord where
  userId : Nat
  email : String
  onboardingStatus : OnboardingStatus
  kycStatus : KycStatus
  completedSteps : List String
  lastSubmissionRef : Option String
deriving DecidableEq

/-- Status of one wallet-provisioning task (§3). -/
inductive TaskStatus
  | pending
  | provisioning
  | ready
  | failed
deriving DecidableEq

/-- One wallet-provisioning task per (user, chain) attempt (§3). -/
structure WalletProvisioningTask where
  userId : Nat
  chain : Chain
  status : TaskStatus
  attempts : Nat
  address : Option String
  lastError : Option String
deriving DecidableEq

/-- The orchestrator's persisted state: records, submissions,
wallet-provisioning tasks, and a fresh-id counter used for user ids and
provider references. -/
structure SysState where
  records : List OnboardingRecord
  submissions : List KycSubmission
  tasks : List WalletProvisioningTask
  nextId : Nat
deriving DecidableEq

/-- The error taxonomy of §7. -/
inductive ApiError
  | validationError
  | conflict
  | unauthorized
  | forbidden
  | notFound
  | unsupportedChain
deriving DecidableEq

/-- HTTP status of each error kind per the taxonomy of §7. -/
def httpOfError : ApiError → Nat
  | .validationError => 400
  | .conflict => 409
  | .unauthorized => 401
  | .forbidden => 403
  | .notFound => 404
  | .unsupportedChain => 400

/-- Record lookup by case-normalized email. -/
def findRecordByEmail (st : SysState) (e : String) : Option OnboardingRecord :=
  st.records.find? (fun r => r.email == normalizeEmail e)

/-- Record lookup by user id. -/
def findRecordByUser (st : SysState) (uid : Nat) : Option OnboardingRecord :=
  st.records.find? (fun r => r.userId == uid)

/-- Submission lookup by provider reference. -/
def findSubmission (st : SysState) (ref : String) : Option KycSubmission :=
  st.submissions.find? (fun s => s.providerRef == ref)

/-- Number of onboarding records stored for a given (case-normalized)
email. -/
def countRecordsFor (st : SysState) (e : String) : Nat :=
  (st.records.filter (fun r => r.email == normalizeEmail e)).length

/-- Modelled from the spec: `start(email, phone?)` (§4.1) — validates the
email, fails with `Conflict` when a record already exists for the
case-normalized email, otherwise creates a `Started`/`NotSubmitted` record.
Phone is optional (`none`), explicit null (`some none`) or a value
(`some (some v)`); per §3 the record holds no phone and §4.1 states its
presence never changes acceptance, so it is not consulted. -/
def start (st : SysState) (email : Option String)
    (_phone : Option (Option String)) : Except ApiError (SysState × Nat) :=
  match email with
  | none => .error .validationError
  | some e =>
    if !validEmail e then .error .validationError
    else if (findRecordByEmail st e).isSome then .error .conflict
    else
      let uid := st.nextId
      let r : OnboardingRecord :=
        ⟨uid, normalizeEmail e, .started, .notSubmitted,
          ["onboarding_started"], none⟩
      .ok ({ st with records := r :: st.records, nextId := st.nextId + 1 }, uid)

/-- Fresh provider reference issued when a submission is accepted. -/
def freshProviderRef (st : SysState) : String := "ref-" ++ toString st.nextId

/-- Modelled from the spec: `submitKyc(userId, submission)` (§4.1, §4.4) —
validation first (side-effect free, before the transactional step), then the
record must exist, must not hold a `Pending` or `Approved` KYC status
(`Conflict` otherwise), and on success a fresh `Pending` submission is
persisted and the record moves to `Pending`/`KycPending`. -/
def submitKyc (st : SysState) (uid : Nat) (p : KycSubmissionPayload) :
    Except ApiError SysState :=
  if !validateKycSubmission p then .error .validationError
  else
    match findRecordByUser st uid with
    | none => .error .notFound
    | some r =>
      if r.kycStatus = .pending then .error .conflict
      else if r.kycStatus = .approved then .error .conflict
      else
        let ref := freshProviderRef st
        let sub : KycSubmission := ⟨ref, uid, .pending⟩
        let r' : OnboardingRecord :=
          { r with
            kycStatus := .pending
            onboardingStatus := .kycPending
            completedSteps := r.completedSteps ++ ["kyc_submitted"]
            lastSubmissionRef := some ref }
        .ok { st with
          records := st.records.map (fun x => if x.userId == uid then r' else x)
          submissions := sub :: st.submissions
          nextId := st.nextId + 1 }

/-- A provider callback payload as received on the wire (§4.2). -/
structure CallbackPayload where
  status : Option String
  providerReference : Option String
  details : Option String
deriving DecidableEq

/-- The closed set of recognized callback outcomes (§4.2). -/
inductive CallbackStatus
  | approved
  | rejected
deriving DecidableEq

/-- Modelled from the spec: callback `status` must be one of the closed set
`{approved, rejected}`; any other token is a validation failure (§4.2). -/
def parseCallbackStatus (s : String) : Option CallbackStatus :=
  if s == "approved" then some .approved
  else if s == "rejected" then some .rejected
  else none

/-- The configured default chain set used for the post-approval fan-out
(§4.2), matching the core enumeration exercised by the tests. -/
def defaultChains : List Chain := [.eth, .sol, .aptos]

/-- Modelled from the spec: the WalletProvisioner fan-out (§4.3) — for each
requested chain, create a task unless one already exists for that
(user, chain) pair (create-or-reuse; a `Ready` task is a no-op). -/
def provisionTasks (st : SysState) (uid : Nat) : List Chain → SysState
  | [] => st
  | c :: cs =>
    let st' :=
      if (st.tasks.find? (fun t => t.userId == uid && t.chain == c)).isSome
      then st
      else { st with tasks := ⟨uid, c, .pending, 0, none, none⟩ :: st.tasks }
    provisionTasks st' uid cs

/-- Terminal submission states matching a callback outcome (idempotent
retry detection, §4.2). -/
def matchesTerminal : SubmissionStatus → CallbackStatus → Bool
  | .approved, .approved => true
  | .rejected, .rejected => true
  | _, _ => false

/-- Effect of a decided callback on a `Pending` submission (§4.2): on
`approved` the submission, the record's KycStatus and OnboardingStatus all
advance and the default chain set is fanned out; on `rejected` the record
reverts to a state permitting resubmission. -/
def applyCallback (st : SysState) (sub : KycSubmission) :
    CallbackStatus → SysState
  | .approved =>
    let st1 : SysState :=
      { st with
        submissions := st.submissions.map (fun s =>
          if s.providerRef == sub.providerRef
          then { sub with status := .approved } else s)
        records := st.records.map (fun r =>
          if r.userId == sub.userId then
            { r with
              kycStatus := .approved
              onboardingStatus := .walletProvisioning
              completedSteps := r.completedSteps ++ ["kyc_approved"] }
          else r) }
    provisionTasks st1 sub.userId defaultChains
  | .rejected =>
    { st with
      submissions := st.submissions.map (fun s =>
        if s.providerRef == sub.providerRef
        then { sub with status := .rejected } else s)
      records := st.records.map (fun r =>
        if r.userId == sub.userId then
          { r with
            kycStatus := .rejected
            onboardingStatus := .kycFailed
            completedSteps := r.completedSteps ++ ["kyc_rejected"] }
        else r) }

/-- Modelled from the spec: `handleCallback` (§4.2) — shape validation first
(`status` in the closed set, `providerReference` non-empty), then the
reference must resolve to a submission; a `Pending` submission is decided, a
matching terminal one is a no-op success, a conflicting terminal one fails
with `Conflict` (a provider must not flip a decision). -/
def handleCallback (st : SysState) (p : CallbackPayload) :
    Except ApiError SysState :=
  match p.status with
  | none => .error .validationError
  | some sstr =>
    match parseCallbackStatus sstr with
    | none => .error .validationError
    | some cs =>
      match p.providerReference with
      | none => .error .validationError
      | some pr =>
        if pr == "" then .error .validationError
        else
          match findSubmission st pr with
          | none => .error .notFound
          | some sub =>
            match sub.status with
            | .pending => .ok (applyCallback st sub cs)
            | .approved =>
              if cs = .approved then .ok st else .error .conflict
            | .rejected =>
              if cs = .rejected then .ok st else .error .conflict

/-- Modelled from the spec: `POST /admin/wallet/create` body handling (§4.3,
§6) — `user_id` and `chains` are required, `chains` must be non-empty and
every entry supported; any bad entry rejects the whole batch before any task
is created. -/
def adminWalletCreate (st : SysState) (userId : Option Nat)
    (chains : Option (List String)) : Except ApiError SysState :=
  match userId with
  | none => .error .validationError
  | some uid =>
    match chains with
    | none => .error .validationError
    | some cs =>
      if cs.isEmpty then .error .validationError
      else
        match parseChains cs with
        | none => .error .validationError
        | some parsed => .ok (provisionTasks st uid parsed)

/-- The role claim carried by a bearer token (§6). -/
inductive Role
  | user
  | admin
deriving DecidableEq

/-- A validated bearer credential: the user it identifies and its role. -/
structure AuthToken where
  userId : Nat
  role : Role
deriving DecidableEq

/-- Modelled from the spec: `POST /onboarding/start` (§6) — 201 on success,
the error's taxonomy status otherwise; on error the state is unchanged. -/
def startEndpoint (st : SysState) (email : Option String)
    (phone : Option (Option String)) : Nat × SysState :=
  match start st email phone with
  | .ok (st', _) => (201, st')
  | .error e => (httpOfError e, st)

/-- Modelled from the spec: `POST /onboarding/kyc/submit` (§6) — bearer
required (401 without one), 202 accepted on success. -/
def submitKycEndpoint (st : SysState) (auth : Option AuthToken)
    (p : KycSubmissionPayload) : Nat × SysState :=
  match auth with
  | none => (401, st)
  | some t =>
    match submitKyc st t.userId p with
    | .ok st' => (202, st')
    | .error e => (httpOfError e, st)

/-- Modelled from the spec: `POST /kyc/callback/{providerReference}` (§6) —
no bearer credential is consulted (the provider carries no session, §9); 200
on success; both validation failures and an unknown reference map to 400 at
the endpoint even though the unknown reference is `NotFound` in the taxonomy
(§6 vs §7). -/
def callbackEndpoint (st : SysState) (_auth : Option AuthToken)
    (p : CallbackPayload) : Nat × SysState :=
  match handleCallback st p with
  | .ok st' => (200, st')
  | .error .notFound => (400, st)
  | .error e => (httpOfError e, st)

/-- Modelled from the spec: `POST /admin/wallet/create` endpoint (§6) —
bearer with admin role required, 202 accepted on success. -/
def adminWalletCreateEndpoint (st : SysState) (auth : Option AuthToken)
    (userId : Option Nat) (chains : Option (List String)) : Nat × SysState :=
  match auth with
  | none => (401, st)
  | some t =>
    if t.role = .admin then
      match adminWalletCreate st userId chains with
      | .ok st' => (202, st')
      | .error e => (httpOfError e, st)
    else (403, st)

/-- Modelled from the spec: `GET /wallet/addresses?chain=` (§6) — bearer
required, an unsupported chain value is rejected with `UnsupportedChain`
(400), otherwise the caller's tasks (filtered by chain when given) are
returned. -/
def getWalletAddresses (st : SysState) (auth : Option AuthToken)
    (chain : Option String) :
    Except ApiError (List WalletProvisioningTask) :=
  match auth with
  | none => .error .unauthorized
  | some t =>
    match chain with
    | none => .ok (st.tasks.filter (fun w => w.userId == t.userId))
    | some s =>
      match parseChain s with
      | none => .error .unsupportedChain
      | some c =>
        .ok (st.tasks.filter (fun w => w.userId == t.userId && w.chain == c))

/-- HTTP status of the wallet-addresses endpoint. -/
def walletAddressesEndpoint (st : SysState) (auth : Option AuthToken)
    (chain : Option String) : Nat :=
  match getWalletAddresses st auth chain with
  | .ok _ => 200
  | .error e => httpOfError e

/-- State after a `start` call, the state being kept unchanged on error. -/
def startAfter (st : SysState) (email : Option String)
    (phone : Option (Option String)) : SysState :=
  match start st email phone with
  | .ok (st', _) => st'
  | .error _ => st

/-- State after a `submitKyc` call, kept unchanged on error. -/
def submitKycAfter (st : SysState) (uid : Nat) (p : KycSubmissionPayload) :
    SysState :=
  match submitKyc st uid p with
  | .ok st' => st'
  | .error _ => st

/-- State after a `handleCallback` call, kept unchanged on error. -/
def afterCallback (st : SysState) (p : CallbackPayload) : SysState :=
  match handleCallback st p with
  | .ok st' => st'
  | .error _ => st

/-- State after an `adminWalletCreate` call, kept unchanged on error. -/
def adminAfter (st : SysState) (userId : Option Nat)
    (chains : Option (List String)) : SysState :=
  match adminWalletCreate st userId chains with
  | .ok st' => st'
  | .error _ => st

/-- The well-formed callback payload `{status: approved, providerReference:
R}` used by the provider retry scenarios. -/
def approvedPayload (r : String) : CallbackPayload := ⟨some "approved", some r, none⟩

/-- The conflicting payload `{status: rejected, providerReference: R}`. -/
def rejectedPayload (r : String) : CallbackPayload := ⟨some "rejected", some r, none⟩

/-- Submissions of a user that are currently in `Pending` state. -/
def pendingSubsFor (st : SysState) (uid : Nat) : List KycSubmission :=
  st.submissions.filter (fun s => s.userId == uid && s.status == .pending)

/-- The system invariant around outstanding submissions (§3, §5): at most one
submission per user is `Pending`; a user holding a `Pending` submission has
KycStatus `Pending` on their record; and stored ids are below the fresh-id
counter. -/
def PendingInv (st : SysState) : Prop :=
  (∀ uid, (pendingSubsFor st uid).length ≤ 1) ∧
  (∀ sub ∈ st.submissions, sub.status = SubmissionStatus.pending →
    ∀ r, findRecordByUser st sub.userId = some r →
      r.kycStatus = KycStatus.pending) ∧
  (∀ sub ∈ st.submissions, sub.userId < st.nextId) ∧
  (∀ r ∈ st.records, r.userId < st.nextId)

/-- A concrete baseline state with no records at all. -/
def emptyState : SysState := ⟨[], [], [], 0⟩

/-- A concrete record whose KYC submission is outstanding. -/
def demoRecord : OnboardingRecord :=
  ⟨0, "user@example.com", .kycPending, .pending,
    ["onboarding_started", "kyc_submitted"], some "ref-0"⟩

/-- The outstanding submission of `demoRecord`. -/
def demoSubmission : KycSubmission := ⟨"ref-0", 0, .pending⟩

/-- A concrete state holding one record with one `Pending` submission. -/
def demoState : SysState := ⟨[demoRecord], [demoSubmission], [], 1⟩

/-- A concrete state holding one freshly started record with no submission
yet. -/
def demoStartedState : SysState :=
  ⟨[⟨0, "user@example.com", .started, .notSubmitted,
    ["onboarding_started"], none⟩], [], [], 1⟩

/-- A concrete syntactically valid KYC payload (the tests' passport
submission). -/
def demoKycPayload : KycSubmissionPayload :=
  ⟨some "passport",
    some [⟨some "passport", some "https://example.com/passport.jpg",
      some "image/jpeg"⟩],
    none, none⟩

/-- The decided submission status recorded by a callback outcome. -/
def decidedStatus : CallbackStatus → SubmissionStatus
  | .approved => .approved
  | .rejected => .rejected

/-- The §4.4 validity conditions on a KYC payload, stated as a proposition:
`documentType` present and non-empty; `documents` present and non-empty;
every document with a non-empty `type`, an absolute http/https `fileUrl` and
a non-empty `contentType`. -/
def SpecValidKyc (p : KycSubmissionPayload) : Prop :=
  (∃ t, p.documentType = some t ∧ t ≠ "") ∧
  ∃ ds, p.documents = some ds ∧ ds ≠ [] ∧
    ∀ d ∈ ds,
      (∃ ty, d.type = some ty ∧ ty ≠ "") ∧
      (∃ u, d.fileUrl = some u ∧ isHttpUrl u = true) ∧
      (∃ c, d.contentType = some c ∧ c ≠ "")

/-- The state produced by a successful `submitKyc` for user `uid` whose
current record is `r`. -/
def submitSuccessState (st : SysState) (uid : Nat) (r : OnboardingRecord) :
    SysState :=
  { st with
    records := st.records.map (fun x =>
      if x.userId == uid then
        { r with
          kycStatus := .pending
          onboardingStatus := .kycPending
          completedSteps := r.completedSteps ++ ["kyc_submitted"]
          lastSubmissionRef := some (freshProviderRef st) }
      else x)
    submissions := ⟨freshProviderRef st, uid, .pending⟩ :: st.submissions
    nextId := st.nextId + 1 }

/-- The record update applied by a decided callback (§4.2). -/
def callbackRecordUpdate (c : CallbackStatus) (r : OnboardingRecord) :
    OnboardingRecord :=
  match c with
  | .approved =>
    { r with
      kycStatus := .approved
      onboardingStatus := .walletProvisioning
      completedSteps := r.completedSteps ++ ["kyc_approved"] }
  | .rejected =>
    { r with
      kycStatus := .rejected
      onboardingStatus := .kycFailed
      completedSteps := r.completedSteps ++ ["kyc_rejected"] }

/-- The state produced by a successful `start` with email `e`. -/
def startSuccessState (st : SysState) (e : String) : SysState :=
  { st with
    records := ⟨st.nextId, normalizeEmail e, .started, .notSubmitted,
      ["onboarding_started"], none⟩ :: st.records
    nextId := st.nextId + 1 }

section Lemmas

/-- A list of length at most one has at most one member. -/
theorem eq_of_mem_of_length_le_one {α : Type} {l : List α} {a b : α}
    (h : l.length ≤ 1) (ha : a ∈ l) (hb : b ∈ l) : a = b := by
  match l with
  | [] => cases ha
  | [x] =>
    rw [List.mem_singleton.mp ha, List.mem_singleton.mp hb]
  | x :: y :: t => simp at h

/-- `find?` on a userId-preserving record map. -/
theorem find?_userId_map (l : List OnboardingRecord)
    (f : OnboardingRecord → OnboardingRecord)
    (hf : ∀ r, (f r).userId = r.userId) (v : Nat) :
    (l.map f).find? (fun r => r.userId == v) =
      (l.find? (fun r => r.userId == v)).map f := by
  rw [List.find?_map]
  have hcmp : ((fun r : OnboardingRecord => r.userId == v) ∘ f) =
      fun r : OnboardingRecord => r.userId == v := by
    funext r
    simp [Function.comp, hf]
  rw [hcmp]

/-- `find?` by reference on a submission map that replaces every submission
carrying reference `R` by the fixed submission `sub'` (which itself carries
reference `R`). -/
theorem find?_ref_map (l : List KycSubmission) (R : String)
    (sub' : KycSubmission) (h : sub'.providerRef = R) :
    (l.map (fun s => if s.providerRef == R then sub' else s)).find?
        (fun s => s.providerRef == R) =
      (l.find? (fun s => s.providerRef == R)).map (fun _ => sub') := by
  induction l with
  | nil => rfl
  | cons x xs ih =>
    simp only [List.map_cons, List.find?_cons]
    by_cases hx : (x.providerRef == R) = true
    · rw [if_pos hx, hx]
      rw [show (sub'.providerRef == R) = true from beq_iff_eq.mpr h]
      rfl
    · rw [Bool.not_eq_true] at hx
      rw [if_neg (by simp [hx]), hx]
      exact ih

/-- Mapping a list by a function that fixes every element kept by the filter
cannot increase the filtered length. -/
theorem length_filter_map_le {α : Type} (l : List α) (g : α → α)
    (p : α → Bool) (hg : ∀ x, p (g x) = true → g x = x) :
    ((l.map g).filter p).length ≤ (l.filter p).length := by
  induction l with
  | nil => simp
  | cons x xs ih =>
    simp only [List.map_cons, List.filter_cons]
    by_cases hx : p (g x) = true
    · have hgx := hg x hx
      rw [hgx] at hx ⊢
      simp only [hx, List.length_cons]
      exact Nat.succ_le_succ ih
    · rw [Bool.not_eq_true] at hx
      rw [hx]
      by_cases hx2 : p x = true
      · rw [hx2]
        exact Nat.le_succ_of_le ih
      · rw [Bool.not_eq_true] at hx2
        rw [hx2]
        exact ih

/-- The fan-out never touches the stored records. -/
theorem provisionTasks_records (uid : Nat) (cs : List Chain) :
    ∀ st : SysState, (provisionTasks st uid cs).records = st.records := by
  induction cs with
  | nil => intro st; rfl
  | cons c cs ih =>
    intro st
    simp only [provisionTasks]
    split <;> exact ih _

/-- The fan-out never touches the stored submissions. -/
theorem provisionTasks_submissions (uid : Nat) (cs : List Chain) :
    ∀ st : SysState, (provisionTasks st uid cs).submissions = st.submissions := by
  induction cs with
  | nil => intro st; rfl
  | cons c cs ih =>
    intro st
    simp only [provisionTasks]
    split <;> exact ih _

/-- The fan-out never touches the fresh-id counter. -/
theorem provisionTasks_nextId (uid : Nat) (cs : List Chain) :
    ∀ st : SysState, (provisionTasks st uid cs).nextId = st.nextId := by
  induction cs with
  | nil => intro st; rfl
  | cons c cs ih =>
    intro st
    simp only [provisionTasks]
    split <;> exact ih _

/-- A batch containing one unsupported identifier fails to parse. -/
theorem parseChains_eq_none_of_mem (cs : List String) (s : String)
    (hmem : s ∈ cs) (hbad : parseChain s = none) : parseChains cs = none := by
  induction cs with
  | nil => cases hmem
  | cons a rest ih =>
    rcases List.mem_cons.mp hmem with h | h
    · rw [h] at hbad
      simp [parseChains, hbad]
    · simp only [parseChains]
      rw [ih h]
      cases parseChain a <;> rfl

/-- A chain string parses exactly when its uppercase form is one of the
canonical supported names. -/
theorem parseChain_isSome_iff (s : String) :
    (parseChain s).isSome = true ↔
      (String.mk (upData s)) ∈ supportedChainNames := by
  unfold parseChain supportedChainNames
  simp only [List.mem_cons, List.not_mem_nil, or_false]
  split_ifs with h1 h2 h3 h4 h5 h6 <;>
    simp_all [String.ext_iff]

/-- Submissions after a decided callback: every submission carrying the
decided reference is replaced by the decided submission. -/
theorem applyCallback_submissions (st : SysState) (sub : KycSubmission)
    (c : CallbackStatus) :
    (applyCallback st sub c).submissions =
      st.submissions.map (fun s =>
        if s.providerRef == sub.providerRef
        then { sub with status := decidedStatus c } else s) := by
  cases c
  · simp [applyCallback, provisionTasks_submissions, decidedStatus]
  · rfl

/-- Looking the decided reference up after a decided callback returns the
decided submission. -/
theorem findSubmission_applyCallback (st : SysState) (sub : KycSubmission)
    (c : CallbackStatus) (R : String) (href : sub.providerRef = R) :
    findSubmission (applyCallback st sub c) R =
      (findSubmission st R).map
        (fun _ => { sub with status := decidedStatus c }) := by
  unfold findSubmission
  rw [applyCallback_submissions, href]
  exact find?_ref_map st.submissions R _ rfl

/-- A well-formed approved callback on a `Pending` reference is accepted and
decides the submission. -/
theorem handleCallback_pending_approved (st : SysState) (R : String)
    (sub : KycSubmission) (hfind : findSubmission st R = some sub)
    (hp : sub.status = .pending) (hne : (R == "") = false) :
    handleCallback st (approvedPayload R) =
      .ok (applyCallback st sub .approved) := by
  unfold handleCallback approvedPayload
  simp [show parseCallbackStatus "approved" = some CallbackStatus.approved
      from by decide,
    hne, hfind, hp]

/-- A well-formed rejected callback on a `Pending` reference is accepted and
decides the submission. -/
theorem handleCallback_pending_rejected (st : SysState) (R : String)
    (sub : KycSubmission) (hfind : findSubmission st R = some sub)
    (hp : sub.status = .pending) (hne : (R == "") = false) :
    handleCallback st (rejectedPayload R) =
      .ok (applyCallback st sub .rejected) := by
  unfold handleCallback rejectedPayload
  simp [show parseCallbackStatus "rejected" = some CallbackStatus.rejected
      from by decide,
    hne, hfind, hp]

/-- Any syntactically valid callback payload (recognized status, non-empty
reference, arbitrary details) resolving to a `Pending` submission is
accepted and decides the submission. -/
theorem handleCallback_pending (st : SysState) (p : CallbackPayload)
    (s R : String) (cs : CallbackStatus) (sub : KycSubmission)
    (hs : p.status = some s) (hcs : parseCallbackStatus s = some cs)
    (hr : p.providerReference = some R) (hne : (R == "") = false)
    (hfind : findSubmission st R = some sub)
    (hp : sub.status = .pending) :
    handleCallback st p = .ok (applyCallback st sub cs) := by
  unfold handleCallback
  rw [hs]
  simp only [hcs, hr, hne, hfind, hp]
  rfl

/-- Document validity, characterized by the §4.4 conditions. -/
theorem validDocument_iff (d : Document) :
    validDocument d = true ↔
      ((∃ ty, d.type = some ty ∧ ty ≠ "") ∧
       (∃ u, d.fileUrl = some u ∧ isHttpUrl u = true) ∧
       (∃ c, d.contentType = some c ∧ c ≠ "")) := by
  obtain ⟨t, u, c⟩ := d
  unfold validDocument
  cases t <;> cases u <;> cases c <;> simp [and_assoc]

/-- Payload validity, characterized by the §4.4 conditions. -/
theorem validateKycSubmission_iff (p : KycSubmissionPayload) :
    validateKycSubmission p = true ↔ SpecValidKyc p := by
  obtain ⟨dt, ds, pi, md⟩ := p
  unfold validateKycSubmission SpecValidKyc
  cases dt <;> cases ds <;>
    simp [List.all_eq_true, validDocument_iff, List.isEmpty_iff]

/-- A `start` with a valid, unused email succeeds with the explicit new
state. -/
theorem start_success (st : SysState) (e : String)
    (ph : Option (Option String)) (hv : validEmail e = true)
    (hfind : findRecordByEmail st e = none) :
    start st (some e) ph = .ok (startSuccessState st e, st.nextId) := by
  unfold start startSuccessState
  simp [hv, hfind]

/-- Either `start` leaves the state unchanged (on error) or it prepends one
fresh record. -/
theorem startAfter_cases (st : SysState) (e : Option String)
    (ph : Option (Option String)) :
    startAfter st e ph = st ∨
    ∃ e', e = some e' ∧ startAfter st e ph = startSuccessState st e' := by
  unfold startAfter
  cases e with
  | none => left; rfl
  | some e' =>
    by_cases hv : validEmail e' = true
    · by_cases hf : findRecordByEmail st e' = none
      · right
        exact ⟨e', rfl, by rw [start_success st e' ph hv hf]⟩
      · left
        have hsome : (findRecordByEmail st e').isSome = true :=
          Option.ne_none_iff_isSome.mp hf
        unfold start
        simp [hv, hsome]
    · left
      unfold start
      rw [Bool.not_eq_true] at hv
      simp [hv]

/-- An invalid payload is rejected by `submitKyc` before anything else. -/
theorem submitKyc_invalid (st : SysState) (uid : Nat)
    (p : KycSubmissionPayload) (h : validateKycSubmission p = false) :
    submitKyc st uid p = .error .validationError := by
  unfold submitKyc
  simp [h]

/-- A valid payload for an unknown user fails as `NotFound`. -/
theorem submitKyc_notFound (st : SysState) (uid : Nat)
    (p : KycSubmissionPayload) (hv : validateKycSubmission p = true)
    (hfind : findRecordByUser st uid = none) :
    submitKyc st uid p = .error .notFound := by
  unfold submitKyc
  simp [hv, hfind]

/-- A valid payload for a user whose KYC is already `Pending` or `Approved`
fails with `Conflict`. -/
theorem submitKyc_conflict (st : SysState) (uid : Nat)
    (p : KycSubmissionPayload) (r : OnboardingRecord)
    (hv : validateKycSubmission p = true)
    (hfind : findRecordByUser st uid = some r)
    (hst : r.kycStatus = .pending ∨ r.kycStatus = .approved) :
    submitKyc st uid p = .error .conflict := by
  unfold submitKyc
  rcases hst with h | h <;> simp [hv, hfind, h]

/-- A valid payload for an eligible user succeeds with the explicit new
state. -/
theorem submitKyc_success (st : SysState) (uid : Nat)
    (p : KycSubmissionPayload) (r : OnboardingRecord)
    (hv : validateKycSubmission p = true)
    (hfind : findRecordByUser st uid = some r)
    (h1 : r.kycStatus ≠ .pending) (h2 : r.kycStatus ≠ .approved) :
    submitKyc st uid p = .ok (submitSuccessState st uid r) := by
  unfold submitKyc submitSuccessState
  simp [hv, hfind, h1, h2]

/-- Either `submitKyc` leaves the state unchanged (on error) or it succeeds
for some eligible existing record. -/
theorem submitKycAfter_cases (st : SysState) (uid : Nat)
    (p : KycSubmissionPayload) :
    submitKycAfter st uid p = st ∨
    ∃ r, findRecordByUser st uid = some r ∧
      r.kycStatus ≠ .pending ∧ r.kycStatus ≠ .approved ∧
      submitKycAfter st uid p = submitSuccessState st uid r := by
  unfold submitKycAfter
  by_cases hv : validateKycSubmission p = true
  · cases hfind : findRecordByUser st uid with
    | none => left; rw [submitKyc_notFound st uid p hv hfind]
    | some r =>
      by_cases hp : r.kycStatus = .pending
      · left
        rw [submitKyc_conflict st uid p r hv hfind (Or.inl hp)]
      · by_cases ha : r.kycStatus = .approved
        · left
          rw [submitKyc_conflict st uid p r hv hfind (Or.inr ha)]
        · right
          exact ⟨r, rfl, hp, ha,
            by rw [submitKyc_success st uid p r hv hfind hp ha]⟩
  · left
    rw [submitKyc_invalid st uid p (Bool.not_eq_true _ ▸ hv)]

/-- Either a callback leaves the state unchanged (error or no-op retry) or
it decides some `Pending` submission. -/
theorem afterCallback_cases (st : SysState) (p : CallbackPayload) :
    afterCallback st p = st ∨
    ∃ sub c, sub ∈ st.submissions ∧ sub.status = .pending ∧
      afterCallback st p = applyCallback st sub c := by
  cases hs : p.status with
  | none =>
    left
    unfold afterCallback handleCallback
    rw [hs]
  | some s =>
    cases hcs : parseCallbackStatus s with
    | none =>
      left
      unfold afterCallback handleCallback
      rw [hs]
      simp only [hcs]
    | some c =>
      cases hr : p.providerReference with
      | none =>
        left
        unfold afterCallback handleCallback
        rw [hs]
        simp only [hcs, hr]
      | some pr =>
        by_cases hne : (pr == "") = true
        · left
          unfold afterCallback handleCallback
          rw [hs]
          simp only [hcs, hr, hne]
          rfl
        · rw [Bool.not_eq_true] at hne
          cases hf : findSubmission st pr with
          | none =>
            left
            unfold afterCallback handleCallback
            rw [hs]
            simp only [hcs, hr, hne, hf]
            rfl
          | some sub =>
            have hmem : sub ∈ st.submissions := by
              unfold findSubmission at hf
              exact List.mem_of_find?_eq_some hf
            cases hst : sub.status with
            | pending =>
              right
              refine ⟨sub, c, hmem, hst, ?_⟩
              unfold afterCallback handleCallback
              rw [hs]
              simp only [hcs, hr, hne, hf, hst]
              rfl
            | approved =>
              left
              unfold afterCallback handleCallback
              rw [hs]
              simp only [hcs, hr, hne, hf, hst]
              cases c <;> simp
            | rejected =>
              left
              unfold afterCallback handleCallback
              rw [hs]
              simp only [hcs, hr, hne, hf, hst]
              cases c <;> simp

/-- Either `adminWalletCreate` leaves the state unchanged (on error) or it
only fans out tasks. -/
theorem adminAfter_cases (st : SysState) (u : Option Nat)
    (c : Option (List String)) :
    adminAfter st u c = st ∨
    ∃ uid cs, adminAfter st u c = provisionTasks st uid cs := by
  cases u with
  | none => left; rfl
  | some uid =>
    cases c with
    | none => left; rfl
    | some cs =>
      by_cases he : cs.isEmpty = true
      · left
        unfold adminAfter adminWalletCreate
        simp [he]
      · cases hp : parseChains cs with
        | none =>
          left
          unfold adminAfter adminWalletCreate
          simp [he, hp]
        | some parsed =>
          right
          refine ⟨uid, parsed, ?_⟩
          unfold adminAfter adminWalletCreate
          simp [he, hp]

/-- The callback record update never changes the user id. -/
theorem callbackRecordUpdate_userId (c : CallbackStatus)
    (r : OnboardingRecord) : (callbackRecordUpdate c r).userId = r.userId := by
  cases c <;> rfl

/-- Records after a decided callback: the decided user's record gets the
callback update. -/
theorem applyCallback_records (st : SysState) (sub : KycSubmission)
    (c : CallbackStatus) :
    (applyCallback st sub c).records =
      st.records.map (fun r =>
        if r.userId == sub.userId then callbackRecordUpdate c r else r) := by
  cases c
  · simp [applyCallback, provisionTasks_records, callbackRecordUpdate]
  · rfl

/-- A decided callback keeps the fresh-id counter. -/
theorem applyCallback_nextId (st : SysState) (sub : KycSubmission)
    (c : CallbackStatus) :
    (applyCallback st sub c).nextId = st.nextId := by
  cases c
  · simp [applyCallback, provisionTasks_nextId]
  · rfl

/-- The decided status is never `Pending`. -/
theorem decidedStatus_ne_pending (c : CallbackStatus) :
    decidedStatus c ≠ .pending := by
  cases c <;> simp [decidedStatus]

/-- The fan-out preserves the pending-submission invariant. -/
theorem pendingInv_provisionTasks (st : SysState) (h : PendingInv st)
    (uid : Nat) (cs : List Chain) :
    PendingInv (provisionTasks st uid cs) := by
  obtain ⟨h1, h2, h3, h4⟩ := h
  refine ⟨?_, ?_, ?_, ?_⟩
  · intro v
    unfold pendingSubsFor
    rw [provisionTasks_submissions]
    exact h1 v
  · intro s hmem hp r hr
    rw [provisionTasks_submissions] at hmem
    unfold findRecordByUser at hr
    rw [provisionTasks_records] at hr
    exact h2 s hmem hp r hr
  · intro s hmem
    rw [provisionTasks_submissions] at hmem
    rw [provisionTasks_nextId]
    exact h3 s hmem
  · intro r hmem
    rw [provisionTasks_records] at hmem
    rw [provisionTasks_nextId]
    exact h4 r hmem

/-- `start` preserves the pending-submission invariant. -/
theorem pendingInv_startAfter (st : SysState) (h : PendingInv st)
    (e : Option String) (ph : Option (Option String)) :
    PendingInv (startAfter st e ph) := by
  rcases startAfter_cases st e ph with heq | ⟨e', _, heq⟩
  · rw [heq]; exact h
  · rw [heq]
    obtain ⟨h1, h2, h3, h4⟩ := h
    refine ⟨?_, ?_, ?_, ?_⟩
    · intro v
      exact h1 v
    · intro sub hmem hp r hr
      have hlt := h3 sub hmem
      have hne : (st.nextId == sub.userId) = false := by
        simp only [beq_eq_false_iff_ne, ne_eq]
        omega
      unfold findRecordByUser startSuccessState at hr
      rw [List.find?_cons] at hr
      rw [hne] at hr
      exact h2 sub hmem hp r hr
    · intro sub hmem
      have := h3 sub hmem
      show sub.userId < st.nextId + 1
      omega
    · intro r hmem
      show r.userId < st.nextId + 1
      rcases List.mem_cons.mp hmem with hh | hh
      · rw [hh]
        show st.nextId < st.nextId + 1
        omega
      · have := h4 r hh
        omega

/-- `submitKyc` preserves the pending-submission invariant. -/
theorem pendingInv_submitKycAfter (st : SysState) (h : PendingInv st)
    (uid : Nat) (p : KycSubmissionPayload) :
    PendingInv (submitKycAfter st uid p) := by
  rcases submitKycAfter_cases st uid p with heq | ⟨r, hfind, hnp, hna, heq⟩
  · rw [heq]; exact h
  · rw [heq]
    obtain ⟨h1, h2, h3, h4⟩ := h
    have hru : r.userId = uid := by
      have := List.find?_some hfind
      exact beq_iff_eq.mp this
    have hrmem : r ∈ st.records := List.mem_of_find?_eq_some hfind
    have hnone : ∀ s ∈ st.submissions,
        (s.userId == uid && s.status == SubmissionStatus.pending) = false := by
      intro s hs
      by_cases hu : s.userId = uid
      · by_cases hp2 : s.status = SubmissionStatus.pending
        · exfalso
          apply hnp
          exact h2 s hs hp2 r (by rw [hu]; exact hfind)
        · simp [hp2]
      · simp [hu]
    have hf : ∀ x : OnboardingRecord,
        ((fun x => if x.userId == uid then
          { r with
            kycStatus := KycStatus.pending
            onboardingStatus := OnboardingStatus.kycPending
            completedSteps := r.completedSteps ++ ["kyc_submitted"]
            lastSubmissionRef := some (freshProviderRef st) } else x) x).userId
          = x.userId := by
      intro x
      by_cases hx : (x.userId == uid) = true
      · simp only [hx, if_true]
        have := beq_iff_eq.mp hx
        rw [hru]
        omega
      · rw [Bool.not_eq_true] at hx
        simp [hx]
    refine ⟨?_, ?_, ?_, ?_⟩
    · intro v
      unfold pendingSubsFor submitSuccessState
      rw [List.filter_cons]
      by_cases hvu : uid = v
      · have hhead : ((⟨freshProviderRef st, uid,
            SubmissionStatus.pending⟩ : KycSubmission).userId == v &&
            (⟨freshProviderRef st, uid,
              SubmissionStatus.pending⟩ : KycSubmission).status ==
              SubmissionStatus.pending) = true := by
          simp [hvu]
        rw [hhead]
        have htail : st.submissions.filter
            (fun s => s.userId == v && s.status == SubmissionStatus.pending)
            = [] := by
          rw [List.filter_eq_nil_iff]
          intro s hs
          rw [← hvu]
          simp [hnone s hs]
        simp [htail]
      · have hhead : ((⟨freshProviderRef st, uid,
            SubmissionStatus.pending⟩ : KycSubmission).userId == v &&
            (⟨freshProviderRef st, uid,
              SubmissionStatus.pending⟩ : KycSubmission).status ==
              SubmissionStatus.pending) = false := by
          simp [hvu]
        rw [hhead]
        exact h1 v
    · intro sub hmem hp r' hr'
      unfold findRecordByUser submitSuccessState at hr'
      rw [find?_userId_map st.records _ hf sub.userId] at hr'
      rcases List.mem_cons.mp hmem with hh | hh
      · subst hh
        have hfind2 : st.records.find? (fun x => x.userId == uid) = some r :=
          hfind
        rw [show (⟨freshProviderRef st, uid,
            SubmissionStatus.pending⟩ : KycSubmission).userId = uid from rfl,
          hfind2] at hr'
        simp only [Option.map_some'] at hr'
        rw [show (r.userId == uid) = true from beq_iff_eq.mpr hru] at hr'
        injection hr' with hrr
        rw [← hrr]
        rfl
      · by_cases hu : sub.userId = uid
        · exfalso
          have := hnone sub hh
          rw [hu] at this
          simp [hp] at this
        · cases hfind0 : st.records.find?
              (fun x => x.userId == sub.userId) with
          | none =>
            rw [hfind0] at hr'
            cases hr'
          | some r0 =>
            rw [hfind0] at hr'
            simp only [Option.map_some'] at hr'
            have hr0b := List.find?_some hfind0
            have hr0u : r0.userId = sub.userId := beq_iff_eq.mp hr0b
            have hne : (r0.userId == uid) = false := by
              simp only [beq_eq_false_iff_ne, ne_eq, hr0u]
              exact hu
            rw [hne] at hr'
            injection hr' with hrr
            rw [← hrr]
            exact h2 sub hh hp r0 hfind0
    · intro sub hmem
      show sub.userId < st.nextId + 1
      rcases List.mem_cons.mp hmem with hh | hh
      · rw [hh]
        show uid < st.nextId + 1
        have := h4 r hrmem
        omega
      · have := h3 sub hh
        omega
    · intro r' hmem
      show r'.userId < st.nextId + 1
      rcases List.mem_map.mp hmem with ⟨x, hx, hgx⟩
      rw [← hgx, hf x]
      have := h4 x hx
      omega

/-- A decided callback preserves the pending-submission invariant. -/
theorem pendingInv_applyCallback (st : SysState) (h : PendingInv st)
    (sub : KycSubmission) (c : CallbackStatus)
    (hmem : sub ∈ st.submissions) (hp : sub.status = .pending) :
    PendingInv (applyCallback st sub c) := by
  obtain ⟨h1, h2, h3, h4⟩ := h
  have hfrec : ∀ x : OnboardingRecord,
      ((fun x => if x.userId == sub.userId then callbackRecordUpdate c x
        else x) x).userId = x.userId := by
    intro x
    by_cases hx : (x.userId == sub.userId) = true
    · simp [hx, callbackRecordUpdate_userId]
    · rw [Bool.not_eq_true] at hx
      simp [hx]
  refine ⟨?_, ?_, ?_, ?_⟩
  · intro v
    unfold pendingSubsFor
    rw [applyCallback_submissions]
    refine le_trans (length_filter_map_le st.submissions _ _ ?_) (h1 v)
    intro x hx
    by_cases hm : (x.providerRef == sub.providerRef) = true
    · exfalso
      rw [if_pos hm] at hx
      cases c <;> simp [decidedStatus] at hx
    · rw [Bool.not_eq_true] at hm
      simp [hm]
  · intro s' hmem' hpend' r' hr'
    rw [applyCallback_submissions] at hmem'
    rcases List.mem_map.mp hmem' with ⟨x, hx, hgx⟩
    by_cases hm : (x.providerRef == sub.providerRef) = true
    · exfalso
      rw [if_pos hm] at hgx
      rw [← hgx] at hpend'
      exact decidedStatus_ne_pending c hpend'
    · rw [Bool.not_eq_true] at hm
      rw [if_neg (by simp [hm])] at hgx
      subst hgx
      by_cases hv : x.userId = sub.userId
      · exfalso
        have hxf : x ∈ st.submissions.filter
            (fun s => s.userId == sub.userId &&
              s.status == SubmissionStatus.pending) :=
          List.mem_filter.mpr ⟨hx, by simp [hv, hpend']⟩
        have hsf : sub ∈ st.submissions.filter
            (fun s => s.userId == sub.userId &&
              s.status == SubmissionStatus.pending) :=
          List.mem_filter.mpr ⟨hmem, by simp [hp]⟩
        have hxs := eq_of_mem_of_length_le_one (h1 sub.userId) hxf hsf
        rw [hxs] at hm
        simp at hm
      · unfold findRecordByUser at hr'
        rw [applyCallback_records,
          find?_userId_map st.records _ hfrec x.userId] at hr'
        cases hfind0 : st.records.find?
            (fun r => r.userId == x.userId) with
        | none =>
          rw [hfind0] at hr'
          cases hr'
        | some r0 =>
          rw [hfind0] at hr'
          simp only [Option.map_some'] at hr'
          have hr0b := List.find?_some hfind0
          have hr0u : r0.userId = x.userId := beq_iff_eq.mp hr0b
          have hne : (r0.userId == sub.userId) = false := by
            simp only [beq_eq_false_iff_ne, ne_eq, hr0u]
            exact hv
          rw [hne] at hr'
          injection hr' with hrr
          rw [← hrr]
          exact h2 x hx hpend' r0 hfind0
  · intro s' hmem'
    rw [applyCallback_nextId]
    rw [applyCallback_submissions] at hmem'
    rcases List.mem_map.mp hmem' with ⟨x, hx, hgx⟩
    by_cases hm : (x.providerRef == sub.providerRef) = true
    · rw [if_pos hm] at hgx
      rw [← hgx]
      exact h3 sub hmem
    · rw [Bool.not_eq_true] at hm
      rw [if_neg (by simp [hm])] at hgx
      rw [← hgx]
      exact h3 x hx
  · intro r' hmem'
    rw [applyCallback_nextId]
    rw [applyCallback_records] at hmem'
    rcases List.mem_map.mp hmem' with ⟨x, hx, hgx⟩
    rw [← hgx, hfrec x]
    exact h4 x hx

/-- `handleCallback` preserves the pending-submission invariant. -/
theorem pendingInv_afterCallback (st : SysState) (h : PendingInv st)
    (p : CallbackPayload) : PendingInv (afterCallback st p) := by
  rcases afterCallback_cases st p with heq | ⟨sub, c, hmem, hp, heq⟩
  · rw [heq]; exact h
  · rw [heq]
    exact pendingInv_applyCallback st h sub c hmem hp

/-- `adminWalletCreate` preserves the pending-submission invariant. -/
theorem pendingInv_adminAfter (st : SysState) (h : PendingInv st)
    (u : Option Nat) (c : Option (List String)) :
    PendingInv (adminAfter st u c) := by
  rcases adminAfter_cases st u c with heq | ⟨uid, cs, heq⟩
  · rw [heq]; exact h
  · rw [heq]
    exact pendingInv_provisionTasks st h uid cs

end Lemmas

/-- C1: on a `Pending` submission with provider reference `R`, the approved
callback succeeds yielding a terminal state `st1`, and a second identical
approved callback succeeds as a no-op returning `st1` itself — the state
(its `completedSteps` included) is not altered further. -/
theorem c1_callback_approved_idempotent (st : SysState) (R : String)
    (sub : KycSubmission) (hfind : findSubmission st R = some sub)
    (hp : sub.status = .pending) (hne : (R == "") = false) :
    ∃ st1, handleCallback st (approvedPayload R) = .ok st1 ∧
      handleCallback st1 (approvedPayload R) = .ok st1 ∧
      afterCallback st1 (approvedPayload R) = st1 := by
  have href : sub.providerRef = R := by
    have := List.find?_some hfind
    exact beq_iff_eq.mp this
  have h1 := handleCallback_pending_approved st R sub hfind hp hne
  refine ⟨applyCallback st sub .approved, h1, ?_, ?_⟩ <;>
  · have h2 : findSubmission (applyCallback st sub .approved) R =
        some { sub with status := .approved } := by
      rw [findSubmission_applyCallback st sub .approved R href, hfind]
      rfl
    have h3 : handleCallback (applyCallback st sub .approved)
        (approvedPayload R) = .ok (applyCallback st sub .approved) := by
      unfold handleCallback approvedPayload
      simp [show parseCallbackStatus "approved" = some CallbackStatus.approved
          from by decide,
        hne, h2]
    simp [afterCallback, h3]

/-- Closed witness for C1 at the concrete pending submission of
`demoState`. -/
theorem c1_witness :
    ∃ st1, handleCallback demoState (approvedPayload "ref-0") = .ok st1 ∧
      handleCallback st1 (approvedPayload "ref-0") = .ok st1 ∧
      afterCallback st1 (approvedPayload "ref-0") = st1 :=
  c1_callback_approved_idempotent demoState "ref-0" demoSubmission
    (by decide) (by decide) (by decide)

/-- C3: on a `Pending` submission with reference `R`, the approved callback
succeeds; a subsequent rejected callback on the same reference fails with
`Conflict`, leaves the state unchanged, and the submission remains
`Approved` after both calls. -/
theorem c3_callback_conflicting_rejected (st : SysState) (R : String)
    (sub : KycSubmission) (hfind : findSubmission st R = some sub)
    (hp : sub.status = .pending) (hne : (R == "") = false) :
    ∃ st1, handleCallback st (approvedPayload R) = .ok st1 ∧
      handleCallback st1 (rejectedPayload R) = .error .conflict ∧
      afterCallback st1 (rejectedPayload R) = st1 ∧
      ∃ sub1, findSubmission (afterCallback st1 (rejectedPayload R)) R =
          some sub1 ∧ sub1.status = .approved := by
  have href : sub.providerRef = R := by
    have := List.find?_some hfind
    exact beq_iff_eq.mp this
  have h1 := handleCallback_pending_approved st R sub hfind hp hne
  have h2 : findSubmission (applyCallback st sub .approved) R =
      some { sub with status := .approved } := by
    rw [findSubmission_applyCallback st sub .approved R href, hfind]
    rfl
  have h3 : handleCallback (applyCallback st sub .approved)
      (rejectedPayload R) = .error .conflict := by
    unfold handleCallback rejectedPayload
    simp [show parseCallbackStatus "rejected" = some CallbackStatus.rejected
        from by decide,
      hne, h2]
  have h4 : afterCallback (applyCallback st sub .approved)
      (rejectedPayload R) = applyCallback st sub .approved := by
    simp [afterCallback, h3]
  exact ⟨applyCallback st sub .approved, h1, h3, h4,
    { sub with status := .approved }, by rw [h4]; exact h2, rfl⟩

/-- Closed witness for C3 at the concrete pending submission of
`demoState`. -/
theorem c3_witness :
    ∃ st1, handleCallback demoState (approvedPayload "ref-0") = .ok st1 ∧
      handleCallback st1 (rejectedPayload "ref-0") = .error .conflict ∧
      afterCallback st1 (rejectedPayload "ref-0") = st1 ∧
      ∃ sub1, findSubmission (afterCallback st1 (rejectedPayload "ref-0"))
          "ref-0" = some sub1 ∧ sub1.status = .approved :=
  c3_callback_conflicting_rejected demoState "ref-0" demoSubmission
    (by decide) (by decide) (by decide)

/-- C10: every syntactically valid callback payload (any recognized status,
any details value) whose provider reference resolves to a `Pending`
submission is processed with HTTP 200 with no bearer credential supplied —
the callback endpoint never consults the credential — whereas the mutating
submit and admin endpoints answer 401 without one. -/
theorem c10_callback_needs_no_auth (st : SysState) (p : CallbackPayload)
    (s R : String) (cs : CallbackStatus) (sub : KycSubmission)
    (hs : p.status = some s) (hcs : parseCallbackStatus s = some cs)
    (hr : p.providerReference = some R) (hne : (R == "") = false)
    (hfind : findSubmission st R = some sub)
    (hp : sub.status = .pending) :
    (∃ st1, callbackEndpoint st none p = (200, st1)) ∧
    (∀ a : Option AuthToken, callbackEndpoint st a p =
      callbackEndpoint st none p) ∧
    (∀ q, (submitKycEndpoint st none q).1 = 401) ∧
    (∀ u c, (adminWalletCreateEndpoint st none u c).1 = 401) := by
  have h1 := handleCallback_pending st p s R cs sub hs hcs hr hne hfind hp
  refine ⟨⟨applyCallback st sub cs, ?_⟩, fun a => rfl,
    fun q => rfl, fun u c => rfl⟩
  unfold callbackEndpoint
  rw [h1]

/-- Closed witness for C10 at the concrete pending submission of
`demoState`, with a details-bearing rejected payload. -/
theorem c10_witness :
    (∃ st1, callbackEndpoint demoState none
      ⟨some "rejected", some "ref-0", some "document illegible"⟩ =
        (200, st1)) ∧
    (∀ a : Option AuthToken,
      callbackEndpoint demoState a
          ⟨some "rejected", some "ref-0", some "document illegible"⟩ =
        callbackEndpoint demoState none
          ⟨some "rejected", some "ref-0", some "document illegible"⟩) ∧
    (∀ q, (submitKycEndpoint demoState none q).1 = 401) ∧
    (∀ u c, (adminWalletCreateEndpoint demoState none u c).1 = 401) :=
  c10_callback_needs_no_auth demoState
    ⟨some "rejected", some "ref-0", some "document illegible"⟩
    "rejected" "ref-0" .rejected demoSubmission
    rfl (by decide) rfl (by decide) (by decide) (by decide)

/-- C9: the acceptance decision of `start` is identical whether phone is
absent, explicitly null, or a present value — both at the operation level
and at the HTTP endpoint level the result does not depend on the phone
field. -/
theorem c9_start_ignores_phone (st : SysState) (email : Option String)
    (p1 p2 : Option (Option String)) :
    start st email p1 = start st email p2 ∧
    startEndpoint st email p1 = startEndpoint st email p2 :=
  ⟨rfl, rfl⟩

/-- C7: `GET /wallet/addresses?chain=v` answers 400 exactly when the
case-normalized (uppercased) form of `v` is outside the supported
enumeration, and 200 exactly when it is inside — so every case variant of a
supported identifier is accepted and every other value (the empty string
included) is rejected. -/
theorem c7_wallet_addresses_chain_validation (st : SysState)
    (tok : AuthToken) (s : String) :
    (walletAddressesEndpoint st (some tok) (some s) = 400 ↔
      (String.mk (upData s)) ∉ supportedChainNames) ∧
    (walletAddressesEndpoint st (some tok) (some s) = 200 ↔
      (String.mk (upData s)) ∈ supportedChainNames) := by
  have h := parseChain_isSome_iff s
  unfold walletAddressesEndpoint getWalletAddresses
  cases hp : parseChain s <;> simp_all [httpOfError]

/-- C8: a callback whose well-formed payload carries a provider reference
resolving to no submission fails as `NotFound` (404 in the taxonomy), the
endpoint answers 400 per its contract, and the state is not mutated. -/
theorem c8_callback_unknown_reference (st : SysState) (p : CallbackPayload)
    (s R : String) (cs : CallbackStatus)
    (hs : p.status = some s) (hcs : parseCallbackStatus s = some cs)
    (hr : p.providerReference = some R) (hne : (R == "") = false)
    (hfind : findSubmission st R = none) :
    handleCallback st p = .error .notFound ∧
    callbackEndpoint st none p = (400, st) ∧
    afterCallback st p = st ∧
    httpOfError .notFound = 404 := by
  have h1 : handleCallback st p = .error .notFound := by
    unfold handleCallback
    rw [hs]
    simp only [hcs, hr, hne, hfind]
    rfl
  refine ⟨h1, ?_, ?_, rfl⟩
  · unfold callbackEndpoint
    rw [h1]
  · unfold afterCallback
    rw [h1]

/-- C5: an admin wallet-create request whose chains list is missing, empty,
or contains any unsupported identifier fails validation as a whole — the
endpoint answers 400 and no task is created for any chain of the batch, the
valid ones included. -/
theorem c5_admin_create_atomic_chain_validation (st : SysState)
    (tok : AuthToken) (uid : Nat) (chains : Option (List String))
    (hadmin : tok.role = .admin)
    (hbad : chains = none ∨ chains = some [] ∨
      ∃ cs s, chains = some cs ∧ s ∈ cs ∧ parseChain s = none) :
    adminWalletCreate st (some uid) chains = .error .validationError ∧
    adminWalletCreateEndpoint st (some tok) (some uid) chains = (400, st) ∧
    (adminAfter st (some uid) chains).tasks = st.tasks := by
  have h1 : adminWalletCreate st (some uid) chains =
      .error .validationError := by
    rcases hbad with h | h | ⟨cs, s, hcs, hmem, hnone⟩
    · rw [h]; rfl
    · rw [h]; rfl
    · rw [hcs]
      have hemp : cs.isEmpty = false := by
        cases cs with
        | nil => cases hmem
        | cons a t => rfl
      unfold adminWalletCreate
      simp [hemp, parseChains_eq_none_of_mem cs s hmem hnone]
  refine ⟨h1, ?_, ?_⟩
  · unfold adminWalletCreateEndpoint
    simp [hadmin, h1, httpOfError]
  · unfold adminAfter
    rw [h1]

/-- Closed witness for C5: a batch naming one bad chain among good ones is
rejected atomically. -/
theorem c5_witness :
    adminWalletCreate demoState (some 0)
        (some ["ETH", "SOL", "INVALIDCHAIN"]) = .error .validationError ∧
    adminWalletCreateEndpoint demoState (some ⟨1, .admin⟩) (some 0)
        (some ["ETH", "SOL", "INVALIDCHAIN"]) = (400, demoState) ∧
    (adminAfter demoState (some 0)
        (some ["ETH", "SOL", "INVALIDCHAIN"])).tasks = demoState.tasks :=
  c5_admin_create_atomic_chain_validation demoState ⟨1, .admin⟩ 0
    (some ["ETH", "SOL", "INVALIDCHAIN"]) rfl
    (Or.inr (Or.inr ⟨["ETH", "SOL", "INVALIDCHAIN"], "INVALIDCHAIN", rfl,
      by decide, by decide⟩))

/-- C2: a first `start` with a fresh valid email answers 201; a second
`start` with any email of the same case-normalized form answers 409 and
leaves the state unchanged; exactly one record for that email exists after
both calls. -/
theorem c2_start_duplicate_email_conflict (st : SysState) (e e2 : String)
    (hv : validEmail e = true) (hv2 : validEmail e2 = true)
    (hnorm : normalizeEmail e2 = normalizeEmail e)
    (hcount : countRecordsFor st e = 0) :
    (startEndpoint st (some e) none).1 = 201 ∧
    (startEndpoint (startEndpoint st (some e) none).2 (some e2) none).1 =
      409 ∧
    (startEndpoint (startEndpoint st (some e) none).2 (some e2) none).2 =
      (startEndpoint st (some e) none).2 ∧
    countRecordsFor (startEndpoint st (some e) none).2 e = 1 := by
  have hfil : st.records.filter (fun r => r.email == normalizeEmail e)
      = [] := by
    have h := hcount
    unfold countRecordsFor at h
    exact List.length_eq_zero.mp h
  have hfind : findRecordByEmail st e = none := by
    unfold findRecordByEmail
    rw [List.find?_eq_none]
    intro r hr
    simpa using (List.filter_eq_nil_iff.mp hfil) r hr
  have h1 : startEndpoint st (some e) none = (201, startSuccessState st e) := by
    unfold startEndpoint
    rw [start_success st e none hv hfind]
  have h2 : findRecordByEmail (startSuccessState st e) e2 =
      some ⟨st.nextId, normalizeEmail e, .started, .notSubmitted,
        ["onboarding_started"], none⟩ := by
    unfold findRecordByEmail startSuccessState
    simp [List.find?_cons, hnorm]
  have h3 : startEndpoint (startSuccessState st e) (some e2) none =
      (409, startSuccessState st e) := by
    unfold startEndpoint start
    have hsome : (findRecordByEmail (startSuccessState st e) e2).isSome =
        true := by
      rw [h2]; rfl
    simp [hv2, hsome, httpOfError]
  have h4 : countRecordsFor (startSuccessState st e) e = 1 := by
    unfold countRecordsFor startSuccessState
    simp [List.filter_cons, hfil]
  rw [h1]
  exact ⟨rfl, by rw [h3], by rw [h3], h4⟩

/-- Closed witness for C2 at a concrete fresh email over the empty state. -/
theorem c2_witness :
    (startEndpoint emptyState (some "user@example.com") none).1 = 201 ∧
    (startEndpoint (startEndpoint emptyState (some "user@example.com")
      none).2 (some "User@Example.com") none).1 = 409 ∧
    (startEndpoint (startEndpoint emptyState (some "user@example.com")
      none).2 (some "User@Example.com") none).2 =
      (startEndpoint emptyState (some "user@example.com") none).2 ∧
    countRecordsFor (startEndpoint emptyState (some "user@example.com")
      none).2 "user@example.com" = 1 :=
  c2_start_duplicate_email_conflict emptyState "user@example.com"
    "User@Example.com" (by decide) (by decide) (by decide) rfl

/-- C6: with a bearer credential, KYC submission answers 400 exactly when
the payload violates the §4.4 conditions (documentType missing or empty,
documents missing or empty, or some document lacking type, an absolute
http/https fileUrl, or a non-empty contentType); every such failure leaves
the state unmutated; and for an eligible user a payload is accepted with 202
exactly when it meets all the conditions. -/
theorem c6_submit_kyc_validation (st : SysState) (tok : AuthToken)
    (p : KycSubmissionPayload) :
    ((submitKycEndpoint st (some tok) p).1 = 400 ↔ ¬ SpecValidKyc p) ∧
    (¬ SpecValidKyc p → (submitKycEndpoint st (some tok) p).2 = st) ∧
    (∀ r, findRecordByUser st tok.userId = some r →
      (r.kycStatus = .notSubmitted ∨ r.kycStatus = .rejected) →
      ((submitKycEndpoint st (some tok) p).1 = 202 ↔ SpecValidKyc p)) := by
  by_cases hv : validateKycSubmission p = true
  · have hspec : SpecValidKyc p := (validateKycSubmission_iff p).mp hv
    cases hfind : findRecordByUser st tok.userId with
    | none =>
      have he : submitKycEndpoint st (some tok) p = (404, st) := by
        simp only [submitKycEndpoint]
        rw [submitKyc_notFound st tok.userId p hv hfind]
        rfl
      rw [he]
      refine ⟨by simp [hspec], fun hn => absurd hspec hn, ?_⟩
      intro r hr
      cases hr
    | some r =>
      by_cases hp : r.kycStatus = .pending
      · have he : submitKycEndpoint st (some tok) p = (409, st) := by
          simp only [submitKycEndpoint]
          rw [submitKyc_conflict st tok.userId p r hv hfind (Or.inl hp)]
          rfl
        rw [he]
        refine ⟨by simp [hspec], fun hn => absurd hspec hn, ?_⟩
        intro r' hr' hst'
        injection hr' with hrr
        subst hrr
        rcases hst' with hh | hh <;> rw [hh] at hp <;> cases hp
      · by_cases ha : r.kycStatus = .approved
        · have he : submitKycEndpoint st (some tok) p = (409, st) := by
            simp only [submitKycEndpoint]
            rw [submitKyc_conflict st tok.userId p r hv hfind (Or.inr ha)]
            rfl
          rw [he]
          refine ⟨by simp [hspec], fun hn => absurd hspec hn, ?_⟩
          intro r' hr' hst'
          injection hr' with hrr
          subst hrr
          rcases hst' with hh | hh <;> rw [hh] at ha <;> cases ha
        · have he : submitKycEndpoint st (some tok) p =
              (202, submitSuccessState st tok.userId r) := by
            simp only [submitKycEndpoint]
            rw [submitKyc_success st tok.userId p r hv hfind hp ha]
          rw [he]
          exact ⟨by simp [hspec], fun hn => absurd hspec hn,
            fun r' hr' hst' => by simp [hspec]⟩
  · have hnspec : ¬ SpecValidKyc p :=
      fun hsp => hv ((validateKycSubmission_iff p).mpr hsp)
    rw [Bool.not_eq_true] at hv
    have he : submitKycEndpoint st (some tok) p = (400, st) := by
      simp only [submitKycEndpoint]
      rw [submitKyc_invalid st tok.userId p hv]
      rfl
    rw [he]
    exact ⟨by simp [hnspec], fun _ => rfl,
      fun r hr hst => by simp [hnspec]⟩

/-- Closed witness for C6 at a concrete eligible user and the valid passport
payload. -/
theorem c6_witness :
    ((submitKycEndpoint demoStartedState (some ⟨0, .user⟩)
        demoKycPayload).1 = 400 ↔ ¬ SpecValidKyc demoKycPayload) ∧
    (¬ SpecValidKyc demoKycPayload →
      (submitKycEndpoint demoStartedState (some ⟨0, .user⟩)
        demoKycPayload).2 = demoStartedState) ∧
    (∀ r, findRecordByUser demoStartedState
        (AuthToken.mk 0 .user).userId = some r →
      (r.kycStatus = .notSubmitted ∨ r.kycStatus = .rejected) →
      ((submitKycEndpoint demoStartedState (some ⟨0, .user⟩)
        demoKycPayload).1 = 202 ↔ SpecValidKyc demoKycPayload)) :=
  c6_submit_kyc_validation demoStartedState ⟨0, .user⟩ demoKycPayload

/-- C4: under the pending-submission invariant, `submitKyc` for a user whose
KycStatus is `Pending` fails with `Conflict` for every valid payload and
leaves the state unchanged (so no second Pending submission appears), and
the invariant — at most one Pending submission per user — is preserved by
every operation: `start`, `submitKyc`, `handleCallback`, and the admin
wallet-create fan-out. -/
theorem c4_single_pending_submission (st : SysState) (h : PendingInv st) :
    (∀ uid r p, findRecordByUser st uid = some r →
      r.kycStatus = .pending → validateKycSubmission p = true →
      submitKyc st uid p = .error .conflict ∧
      submitKycAfter st uid p = st) ∧
    (∀ e ph, PendingInv (startAfter st e ph)) ∧
    (∀ uid p, PendingInv (submitKycAfter st uid p)) ∧
    (∀ p, PendingInv (afterCallback st p)) ∧
    (∀ u c, PendingInv (adminAfter st u c)) := by
  refine ⟨?_, fun e ph => pendingInv_startAfter st h e ph,
    fun uid p => pendingInv_submitKycAfter st h uid p,
    fun p => pendingInv_afterCallback st h p,
    fun u c => pendingInv_adminAfter st h u c⟩
  intro uid r p hfind hp hv
  have hc := submitKyc_conflict st uid p r hv hfind (Or.inl hp)
  refine ⟨hc, ?_⟩
  unfold submitKycAfter
  rw [hc]

/-- Closed witness for C4: the invariant holds of `demoState` and the claim
theorem applies to it. -/
theorem c4_witness :
    (∀ uid r p, findRecordByUser demoState uid = some r →
      r.kycStatus = .pending → validateKycSubmission p = true →
      submitKyc demoState uid p = .error .conflict ∧
      submitKycAfter demoState uid p = demoState) ∧
    (∀ e ph, PendingInv (startAfter demoState e ph)) ∧
    (∀ uid p, PendingInv (submitKycAfter demoState uid p)) ∧
    (∀ p, PendingInv (afterCallback demoState p)) ∧
    (∀ u c, PendingInv (adminAfter demoState u c)) :=
  c4_single_pending_submission demoState
    ⟨fun uid => le_trans (List.length_filter_le _ _) (by decide),
     by
       intro sub hs hp r hr
       have hsub : sub = demoSubmission := by
         simpa [demoState] using hs
       subst hsub
       have hr2 : some demoRecord = some r := hr
       injection hr2 with hr3
       rw [← hr3]
       rfl,
     by decide,
     by decide⟩

/-- Closed witness for C8 at a concrete unknown reference. -/
theorem c8_witness :
    handleCallback emptyState (approvedPayload "nonexistent-ref") =
        .error .notFound ∧
    callbackEndpoint emptyState none (approvedPayload "nonexistent-ref") =
        (400, emptyState) ∧
    afterCallback emptyState (approvedPayload "nonexistent-ref") = emptyState ∧
    httpOfError .notFound = 404 :=
  c8_callback_unknown_reference emptyState (approvedPayload "nonexistent-ref")
    "approved" "nonexistent-ref" .approved rfl (by decide) rfl (by decide) rfl

end StackService
